import Mathlib

/-!
Verification of the access-control and notification subsystem of the
Edubull task tracker (src/jira.py).

The relational tables are embedded as Lean lists of records, SQL queries
as list operations, and each Python function named below as a Lean
function of the same name.  The SHA-256 digest is kept abstract: every
definition that hashes takes a digest function `sha : String → String`
as a parameter (the claims under study depend only on equalities and
lengths of digests, never on the digest bits themselves).
-/

namespace Jira

/-- A row of the users table. -/
structure User where
  id : Nat
  username : String
  full_name : String
  email : String
  department : String
  password_hash : String
  role : String
deriving DecidableEq

/-- A row of the departments table. -/
structure Department where
  id : Nat
  name : String
  description : String
deriving DecidableEq

/-- A row of the user_department_permissions table. -/
structure Grant where
  user_id : Nat
  department_id : Nat
  can_view : Bool
  can_edit : Bool
deriving DecidableEq

/-- A row of the notifications table. -/
structure Notification where
  id : Nat
  user_id : Nat
  content : String
  link : Option String
  is_read : Bool
  created_at : Nat
deriving DecidableEq

/-- A row of the user_mentions table. -/
structure MentionRow where
  comment_id : Nat
  user_id : Nat
  is_read : Bool
deriving DecidableEq

/-- The argument triple of one add_notification call (user_id, content, link);
the notifications table assigns id and created_at on insert. -/
structure NotificationInsert where
  user_id : Nat
  content : String
  link : Option String
deriving DecidableEq

/-- A row of the statuses table as returned by get_all_statuses_with_id
(id and name, already ordered by display_order). -/
structure StatusRow where
  id : Nat
  name : String
deriving DecidableEq

/-- The columns of a tasks-table row that the status-move action touches. -/
structure Task where
  id : Nat
  status_id : Nat
  assignee_id : Option Nat
deriving DecidableEq

/-- The row dict produced by the SELECT in show_department_tasks_by_status:
id, title, description, priority, deadline, assignee (a full name from the
LEFT JOIN) and reporter.  The SELECT list contains no assignee_id column. -/
structure TaskRow where
  id : Nat
  title : String
  description : String
  priority : String
  deadline : Option Nat
  assignee : Option String
  reporter : String
deriving DecidableEq

/-- An ASCII single-quote character, used inside notification texts. -/
def sq : String := String.mk [Char.ofNat 39]

/-! ### Credential store (src/jira.py lines 174-264, 2110-2165) -/

/-- hash_password: a single unsalted digest of the password. -/
def hash_password (sha : String → String) (password : String) : String :=
  sha password

/-- verify_user: SELECT ... FROM users WHERE username = %s AND password_hash = %s,
returning the first row or None. -/
def verify_user (sha : String → String) (users : List User)
    (username password : String) : Option User :=
  (users.filter (fun u =>
    decide (u.username = username) &&
    decide (u.password_hash = hash_password sha password))).head?

/-- Outcome reported by the registration branch of login_page. -/
inductive RegisterError where
  | missingField
  | passwordMismatch
  | duplicateUsername
deriving DecidableEq

/-- The registration branch of login_page (lines 236-262): all five text
fields are required, the two passwords must match, then a pre-check query
looks for an existing row with the same username; only if all checks pass
is the new row (role defaults to user) inserted. -/
def register (sha : String → String) (users : List User) (nextId : Nat)
    (username fullName email department password confirm : String) :
    List User × Option RegisterError :=
  if username = "" || fullName = "" || email = "" || password = "" || confirm = "" then
    (users, some RegisterError.missingField)
  else if password ≠ confirm then
    (users, some RegisterError.passwordMismatch)
  else if users.any (fun u => decide (u.username = username)) then
    (users, some RegisterError.duplicateUsername)
  else
    (users ++ [⟨nextId, username, fullName, email, department,
               hash_password sha password, "user"⟩], none)

/-- The first element of Python split on the dollar sign: everything
before the first dollar of the stored hash (the whole string when no
dollar occurs). -/
def saltOf (stored : String) : String :=
  String.mk (stored.data.takeWhile (fun c => c ≠ '$'))

/-- The change-password branch of user_profile_page (lines 2110-2165):
require all fields, matching confirmation, length at least 8; re-read the
stored hash, parse its salt, compare against salt-dollar-sha(salt ++ current);
on success store freshSalt-dollar-sha(freshSalt ++ new password), where
freshSalt is a random 16-character string (passed here as a parameter).
Returns the updated users table and whether the update was performed. -/
def change_password (sha : String → String) (users : List User) (uid : Nat)
    (current newPwd confirm : String) (freshSalt : String) :
    List User × Bool :=
  if current = "" || newPwd = "" || confirm = "" then (users, false)
  else if newPwd ≠ confirm then (users, false)
  else if newPwd.length < 8 then (users, false)
  else
    match users.find? (fun u => decide (u.id = uid)) with
    | none => (users, false)
    | some u =>
      if u.password_hash = "" then (users, false)
      else
        if saltOf u.password_hash ++ "$" ++ sha (saltOf u.password_hash ++ current)
            ≠ u.password_hash then (users, false)
        else
          (users.map (fun v =>
            if v.id = uid then
              { v with password_hash := freshSalt ++ "$" ++ sha (freshSalt ++ newPwd) }
            else v), true)

/-! ### Permission engine (src/jira.py lines 613-675, 1700-1743) -/

/-- check_department_access: SELECT can_view FROM user_department_permissions
WHERE user_id AND department_id AND can_view = TRUE, then bool(result). -/
def check_department_access (grants : List Grant) (uid did : Nat) : Bool :=
  grants.any (fun g =>
    decide (g.user_id = uid) && decide (g.department_id = did) && g.can_view)

/-- Modelled from the spec: the source has no single edit-check function;
per the contract in section 4.1 a user can edit a department only if an
explicit grant row for the pair has can_edit true. -/
def can_edit_access (grants : List Grant) (uid did : Nat) : Bool :=
  grants.any (fun g =>
    decide (g.user_id = uid) && decide (g.department_id = did) && g.can_edit)

/-- get_user_accessible_departments: departments JOIN grant rows of the user
with can_view = TRUE, ordered by department name; each result row carries
the department and the grant's can_edit flag. -/
def get_user_accessible_departments (departments : List Department)
    (grants : List Grant) (uid : Nat) : List (Department × Bool) :=
  (departments.flatMap (fun d =>
    (grants.filter (fun g =>
      decide (g.department_id = d.id) && decide (g.user_id = uid) &&
      g.can_view)).map (fun g => (d, g.can_edit)))).mergeSort
    (fun a b => decide (a.1.name ≤ b.1.name))

/-- One (department, can_view, can_edit) entry of the admin panel's batch
permission form (permissions_data). -/
structure PermissionUpdate where
  department_id : Nat
  department_name : String
  can_view : Bool
  can_edit : Bool
deriving DecidableEq

/-- One iteration of the admin-panel update loop (lines 1703-1735): a
pre-check query for an existing (user, department) row decides between an
UPDATE of both flags and an INSERT of a new row. -/
def upsertGrant (grants : List Grant) (uid did : Nat) (v e : Bool) :
    List Grant :=
  if grants.any (fun g => decide (g.user_id = uid) && decide (g.department_id = did)) then
    grants.map (fun g =>
      if g.user_id = uid ∧ g.department_id = did then
        { g with can_view := v, can_edit := e }
      else g)
  else grants ++ [⟨uid, did, v, e⟩]

/-- The batch loop of admin_panel_page (lines 1700-1743).  ok i tells
whether the i-th write statement succeeds (execute_query truthiness); a
failed write leaves the table untouched and is not counted.  Returns the
final table and success_count. -/
def update_permissions_go (uid : Nat) (ok : Nat → Bool) :
    List Grant → Nat → Nat → List PermissionUpdate → List Grant × Nat
  | grants, _, cnt, [] => (grants, cnt)
  | grants, i, cnt, p :: rest =>
    if ok i then
      update_permissions_go uid ok
        (upsertGrant grants uid p.department_id p.can_view p.can_edit)
        (i + 1) (cnt + 1) rest
    else
      update_permissions_go uid ok grants (i + 1) cnt rest

/-- The whole batch update: one upsert attempt per form entry, counting
successes; the caller is shown success_count of N. -/
def update_permissions (grants : List Grant) (uid : Nat)
    (perms : List PermissionUpdate) (ok : Nat → Bool) : List Grant × Nat :=
  update_permissions_go uid ok grants 0 0 perms

/-! ### Comment and mention engine (src/jira.py lines 460-482, 700-726) -/

/-- The character class of the regex word token: letters, digits,
underscore (ASCII model of backslash-w). -/
def isWordChar (c : Char) : Bool :=
  c.isAlpha || c.isDigit || c = '_'

/-- Left-to-right regex scan for at-sign followed by one or more word
characters, as re.findall produces it: the accumulator holds the reversed
characters of the group currently being matched (none when not inside a
candidate match). -/
def mentionScan : Option (List Char) → List Char → List String
  | none, [] => []
  | some acc, [] => if acc.isEmpty then [] else [String.mk acc.reverse]
  | none, c :: rest =>
    if c = '@' then mentionScan (some []) rest else mentionScan none rest
  | some acc, c :: rest =>
    if isWordChar c then mentionScan (some (c :: acc)) rest
    else if c = '@' then
      if acc.isEmpty then mentionScan (some []) rest
      else String.mk acc.reverse :: mentionScan (some []) rest
    else
      if acc.isEmpty then mentionScan none rest
      else String.mk acc.reverse :: mentionScan none rest

/-- All captured groups of re.findall over the comment body, in order. -/
def findMentionTokens (text : String) : List String :=
  mentionScan none text.data

/-- The dict comprehension building username_map: on duplicate usernames the
later row wins, so lookup finds the last user with the given username. -/
def username_map (users : List User) (name : String) : Option Nat :=
  (users.reverse.find? (fun u => decide (u.username = name))).map (fun u => u.id)

/-- extract_mentions (lines 700-712): find all at-tokens, keep those whose
name is a key of username_map (unknown names are dropped silently), and map
them to user ids, one entry per occurrence. -/
def extract_mentions (users : List User) (text : String) : List Nat :=
  (findMentionTokens text).filterMap (fun name => username_map users name)

/-- The notification text built for a mention (line 478). -/
def mention_content (authorName taskTitle : String) : String :=
  authorName ++ " mentioned you in a comment on task " ++ sq ++ taskTitle ++ sq

/-- The mention fan-out of the comment form handler (lines 464-482): after
the comment insert returns its id, every extracted user id gets one
user_mentions row and one notification; with no comment id nothing is
fanned out.  Returns the inserted mention rows and notification inserts. -/
def process_comment_mentions (users : List User) (commentId : Option Nat)
    (authorFullName taskTitle : String) (taskId : Nat) (body : String) :
    List MentionRow × List NotificationInsert :=
  let mentioned := extract_mentions users body
  match commentId with
  | none => ([], [])
  | some cid =>
    (mentioned.map (fun uidM => ⟨cid, uidM, false⟩),
     mentioned.map (fun uidM =>
       ⟨uidM, mention_content authorFullName taskTitle,
        some ("/task/" ++ toString taskId)⟩))

/-! ### Notification inbox (src/jira.py lines 721-761) -/

/-- get_user_notifications: WHERE user_id = %s ORDER BY created_at DESC
LIMIT 50. -/
def get_user_notifications (notifs : List Notification) (uid : Nat) :
    List Notification :=
  (((notifs.filter (fun n => decide (n.user_id = uid))).mergeSort
    (fun a b => decide (b.created_at ≤ a.created_at))).take 50)

/-- get_unread_notification_count: COUNT of the user's unread rows. -/
def get_unread_notification_count (notifs : List Notification) (uid : Nat) :
    Nat :=
  (notifs.filter (fun n => decide (n.user_id = uid) && !n.is_read)).length

/-- mark_notification_read: UPDATE ... SET is_read = TRUE WHERE id = %s. -/
def mark_notification_read (notifs : List Notification) (nid : Nat) :
    List Notification :=
  notifs.map (fun n => if n.id = nid then { n with is_read := true } else n)

/-- mark_all_notifications_read: UPDATE ... SET is_read = TRUE WHERE user_id. -/
def mark_all_notifications_read (notifs : List Notification) (uid : Nat) :
    List Notification :=
  notifs.map (fun n => if n.user_id = uid then { n with is_read := true } else n)

/-! ### Task status transition (src/jira.py lines 486-539, 1765-1767) -/

/-- Python task.get applied to the key assignee_id on the row dict of
show_department_tasks_by_status: the SELECT list has no assignee_id
column, so the lookup yields None for every row. -/
def TaskRow.get_assignee_id (_ : TaskRow) : Option Nat := none

/-- The Move-to-next-status action (lines 514-537): locate the current
status in the catalog (ordered by display_order); only when it is not the
last entry is the move offered; the UPDATE sets the next status id, and on
success a notification is inserted for task.get of assignee_id when that
is truthy.  ok is the UPDATE statement's execute_query truthiness.
Returns the new tasks table, the inserted notifications, and whether a
move was performed. -/
def move_to_next_status (statuses : List StatusRow) (tasks : List Task)
    (row : TaskRow) (status_id : Nat) (ok : Bool) :
    List Task × List NotificationInsert × Bool :=
  match statuses.findIdx? (fun s => decide (s.id = status_id)) with
  | none => (tasks, [], false)
  | some i =>
    if i < statuses.length - 1 then
      match statuses[i + 1]? with
      | none => (tasks, [], false)
      | some next =>
        if ok then
          let tasks1 := tasks.map (fun t =>
            if t.id = row.id then { t with status_id := next.id } else t)
          match row.get_assignee_id with
          | some aid =>
            (tasks1,
             [⟨aid, "Task " ++ sq ++ row.title ++ sq ++ " has been moved to " ++
               next.name, some ("/task/" ++ toString row.id)⟩], true)
          | none => (tasks1, [], true)
        else (tasks, [], false)
    else (tasks, [], false)

/-! ### Concrete sample data for witnesses -/

/-- A sample digest function for witnesses: the identity map. -/
def demoDigest : String → String := fun s => s

/-- A sample digest function with 64-character output for witnesses. -/
def sha64 : String → String := fun _ => String.mk (List.replicate 64 'x')

/-- A sample user whose stored password hash is in the salted format
written by the change-password flow. -/
def carol : User :=
  ⟨1, "carol", "Carol C", "carol@edubull.com", "Engineering",
   "s" ++ "$" ++ String.mk (List.replicate 64 'x'), "user"⟩

/-- A sample known user alice for the mention claims. -/
def aliceU : User :=
  ⟨1, "alice", "Alice A", "alice@edubull.com", "Engineering", "", "user"⟩

/-- A sample two-department batch for the admin permission form. -/
def demoPerms : List PermissionUpdate :=
  [⟨10, "Engineering", true, true⟩, ⟨20, "Sales", true, false⟩]

/-- A sample write-failure schedule: the first statement succeeds, every
later one fails. -/
def demoOk : Nat → Bool := fun i => decide (i = 0)

/-! ### Claim theorems -/

/-- Helper: counting a resolved id in the filterMap image equals counting
the resolving token, when exactly one token name resolves to that id. -/
theorem countP_filterMap_resolved (f : String → Option Nat) (a : Nat)
    (s : String) (h : ∀ t, f t = some a ↔ t = s) :
    ∀ l : List String, (l.filterMap f).countP (fun x => decide (x = a)) =
      l.countP (fun t => decide (t = s)) := by
  intro l
  induction l with
  | nil => rfl
  | cons t rest ih =>
    rw [List.filterMap_cons]
    cases hf : f t with
    | none =>
      have hts : ¬(t = s) := by
        intro hts
        rw [(h t).mpr hts] at hf
        cases hf
      rw [List.countP_cons, ih]
      simp [hts]
    | some b =>
      rw [List.countP_cons, List.countP_cons, ih]
      by_cases hb : b = a
      · subst hb
        have hts : t = s := (h t).mp hf
        simp [hts]
      · have hts : ¬(t = s) := by
          intro hts
          rw [(h t).mpr hts] at hf
          exact hb (Option.some.inj hf).symm
        simp [hb, hts]

/-- Helper: the filterMap image is as long as the number of resolving
entries. -/
theorem length_filterMap_eq_countP {α β : Type} (f : α → Option β) :
    ∀ l : List α, (l.filterMap f).length =
      l.countP (fun t => (f t).isSome) := by
  intro l
  induction l with
  | nil => rfl
  | cons t rest ih =>
    rw [List.filterMap_cons, List.countP_cons]
    cases hf : f t <;> simp [hf, ih]

/-- Helper: counting by a projected field after mapping a constructor whose
projection returns its argument. -/
theorem countP_map_proj {β : Type} (f : Nat → β) (proj : β → Nat)
    (hpf : ∀ x, proj (f x) = x) (a : Nat) :
    ∀ l : List Nat, (l.map f).countP (fun y => decide (proj y = a)) =
      l.countP (fun x => decide (x = a)) := by
  intro l
  induction l with
  | nil => rfl
  | cons x rest ih => simp [List.countP_cons, hpf, ih]

/-- Helper: username_map over a one-user table. -/
theorem username_map_singleton (u : User) (t : String) :
    username_map [u] t = if u.username = t then some u.id else none := by
  unfold username_map
  by_cases h : u.username = t <;> simp [h]

/-- C1: for every user U and department D with no permission grant row for
the pair, check_department_access and the spec's edit check both return
false, and D never appears in get_user_accessible_departments for U.  The
user record is arbitrary, so this holds in particular when the free-text
department field of U equals the name of D: no implicit access exists. -/
theorem spec_C1_no_grant_no_access (departments : List Department)
    (grants : List Grant) (u : User) (d : Department)
    (h : ∀ g ∈ grants, ¬(g.user_id = u.id ∧ g.department_id = d.id)) :
    check_department_access grants u.id d.id = false ∧
    can_edit_access grants u.id d.id = false ∧
    ∀ x ∈ get_user_accessible_departments departments grants u.id,
      x.1.id ≠ d.id := by
  refine ⟨?_, ?_, ?_⟩
  · simp only [check_department_access, List.any_eq_false, Bool.and_eq_true,
      decide_eq_true_eq, not_and]
    intro g hg h12 _
    exact absurd h12 (h g hg)
  · simp only [can_edit_access, List.any_eq_false, Bool.and_eq_true,
      decide_eq_true_eq, not_and]
    intro g hg h12 _
    exact absurd h12 (h g hg)
  · intro x hx
    simp only [get_user_accessible_departments, List.mem_mergeSort,
      List.mem_flatMap, List.mem_map, List.mem_filter, Bool.and_eq_true,
      decide_eq_true_eq] at hx
    rcases hx with ⟨d2, _, g, ⟨hgmem, ⟨hgd, hgu⟩, _⟩, hxeq⟩
    intro hid
    apply h g hgmem
    refine ⟨hgu, ?_⟩
    rw [hgd]
    have : x.1 = d2 := by rw [← hxeq]
    rw [this] at hid
    exact hid

/-- Witness for C1: an empty grant table, user bob (id 1) whose free-text
department field names Engineering, and department Engineering (id 2). -/
theorem spec_C1_witness :
    (∀ g ∈ ([] : List Grant), ¬(g.user_id = 1 ∧ g.department_id = 2)) ∧
    (check_department_access [] 1 2 = false ∧
     can_edit_access [] 1 2 = false ∧
     ∀ x ∈ get_user_accessible_departments [⟨2, "Engineering", ""⟩] [] 1,
       x.1.id ≠ 2) :=
  ⟨by decide,
   spec_C1_no_grant_no_access [⟨2, "Engineering", ""⟩] []
     ⟨1, "bob", "Bob", "bob@edubull.com", "Engineering", "", "user"⟩
     ⟨2, "Engineering", ""⟩ (by decide)⟩

/-- C7: marking all of a user's notifications read brings the unread count
to zero; marking one notification read is idempotent, and marking an
already-read notification leaves the table unchanged (the read flag is
never cleared). -/
theorem spec_C7_mark_read_properties (notifs : List Notification) (uid : Nat) :
    get_unread_notification_count (mark_all_notifications_read notifs uid) uid = 0 ∧
    (∀ nid, mark_notification_read (mark_notification_read notifs nid) nid =
      mark_notification_read notifs nid) ∧
    (∀ nid, (∀ n ∈ notifs, n.id = nid → n.is_read = true) →
      mark_notification_read notifs nid = notifs) := by
  refine ⟨?_, ?_, ?_⟩
  · induction notifs with
    | nil => rfl
    | cons n rest ih =>
      by_cases hn : n.user_id = uid <;>
        simpa [mark_all_notifications_read, get_unread_notification_count,
          List.filter_cons, hn] using ih
  · intro nid
    simp only [mark_notification_read, List.map_map]
    apply List.map_congr_left
    intro n _
    by_cases hn : n.id = nid <;> simp [Function.comp, hn]
  · intro nid hall
    simp only [mark_notification_read]
    have hpt : ∀ n ∈ notifs,
        (if n.id = nid then { n with is_read := true } else n) = n := by
      intro n hn
      by_cases h2 : n.id = nid
      · have hr := hall n hn h2
        cases n
        simp_all
      · simp [h2]
    calc notifs.map (fun n => if n.id = nid then { n with is_read := true } else n)
        = notifs.map id := List.map_congr_left hpt
      _ = notifs := List.map_id notifs

/-- Witness for C7: a two-row notification table; after mark-all the unread
count is zero, marking row 1 read twice equals marking it once, and marking
the already-read row 2 changes nothing. -/
theorem spec_C7_witness :
    get_unread_notification_count
      (mark_all_notifications_read
        [⟨1, 4, "a", none, false, 10⟩, ⟨2, 4, "b", none, true, 11⟩] 4) 4 = 0 ∧
    mark_notification_read (mark_notification_read
      [⟨1, 4, "a", none, false, 10⟩, ⟨2, 4, "b", none, true, 11⟩] 1) 1 =
      mark_notification_read
        [⟨1, 4, "a", none, false, 10⟩, ⟨2, 4, "b", none, true, 11⟩] 1 ∧
    mark_notification_read
      [⟨1, 4, "a", none, false, 10⟩, ⟨2, 4, "b", none, true, 11⟩] 2 =
      [⟨1, 4, "a", none, false, 10⟩, ⟨2, 4, "b", none, true, 11⟩] := by
  have h := spec_C7_mark_read_properties
    [⟨1, 4, "a", none, false, 10⟩, ⟨2, 4, "b", none, true, 11⟩] 4
  exact ⟨h.1, h.2.1 1, h.2.2 2 (by decide)⟩

/-- C8: get_user_notifications returns only rows of the requested user (all
drawn from the table), at most 50 of them, ordered newest first by
created_at. -/
theorem spec_C8_notification_feed (notifs : List Notification) (uid : Nat) :
    (∀ n ∈ get_user_notifications notifs uid, n.user_id = uid ∧ n ∈ notifs) ∧
    (get_user_notifications notifs uid).length ≤ 50 ∧
    (get_user_notifications notifs uid).Pairwise
      (fun a b => b.created_at ≤ a.created_at) := by
  refine ⟨?_, ?_, ?_⟩
  · intro n hn
    have h1 : n ∈ notifs.filter (fun m => decide (m.user_id = uid)) :=
      List.mem_mergeSort.mp (List.Sublist.mem hn (List.take_sublist 50 _))
    have h2 := List.mem_filter.mp h1
    exact ⟨by simpa using h2.2, h2.1⟩
  · exact List.length_take_le 50 _
  · have hs := @List.sorted_mergeSort Notification
      (fun a b => decide (b.created_at ≤ a.created_at))
      (fun a b c h1 h2 => by
        simp only [decide_eq_true_eq] at h1 h2 ⊢
        exact le_trans h2 h1)
      (fun a b => by
        simp only [Bool.or_eq_true, decide_eq_true_eq]
        exact Nat.le_total b.created_at a.created_at)
      (notifs.filter (fun m => decide (m.user_id = uid)))
    have hp := List.Pairwise.sublist (List.take_sublist 50 _) hs
    exact hp.imp (fun h => of_decide_eq_true h)

/-- Witness for C8: the feed of user 4 over a three-row table (one row
belongs to another user) satisfies the three guarantees. -/
theorem spec_C8_witness :
    (∀ n ∈ get_user_notifications
      [⟨1, 4, "a", none, false, 10⟩, ⟨2, 9, "b", none, false, 11⟩,
       ⟨3, 4, "c", none, true, 12⟩] 4,
      n.user_id = 4 ∧ n ∈
        [⟨1, 4, "a", none, false, 10⟩, ⟨2, 9, "b", none, false, 11⟩,
         ⟨3, 4, "c", none, true, 12⟩]) ∧
    (get_user_notifications
      [⟨1, 4, "a", none, false, 10⟩, ⟨2, 9, "b", none, false, 11⟩,
       ⟨3, 4, "c", none, true, 12⟩] 4).length ≤ 50 ∧
    (get_user_notifications
      [⟨1, 4, "a", none, false, 10⟩, ⟨2, 9, "b", none, false, 11⟩,
       ⟨3, 4, "c", none, true, 12⟩] 4).Pairwise
      (fun a b => b.created_at ≤ a.created_at) :=
  spec_C8_notification_feed
    [⟨1, 4, "a", none, false, 10⟩, ⟨2, 9, "b", none, false, 11⟩,
     ⟨3, 4, "c", none, true, 12⟩] 4

/-- C5: after successfully registering bob with password secret123,
verify_user finds bob with secret123, and returns none for every password
whose digest differs from the digest of secret123. -/
theorem spec_C5_register_login_roundtrip (sha : String → String)
    (users : List User) (nextId : Nat) (fullName email department : String)
    (hfn : fullName ≠ "") (he : email ≠ "")
    (hnew : ∀ u ∈ users, u.username ≠ "bob") :
    verify_user sha
      (register sha users nextId "bob" fullName email department
        "secret123" "secret123").1 "bob" "secret123" =
      some ⟨nextId, "bob", fullName, email, department,
            sha "secret123", "user"⟩ ∧
    ∀ p, sha p ≠ sha "secret123" →
      verify_user sha
        (register sha users nextId "bob" fullName email department
          "secret123" "secret123").1 "bob" p = none := by
  have hreg : register sha users nextId "bob" fullName email department
      "secret123" "secret123"
      = (users ++ [⟨nextId, "bob", fullName, email, department,
          sha "secret123", "user"⟩], none) := by
    unfold register
    rw [if_neg (by simp [hfn, he]), if_neg (by simp), if_neg ?hdup]
    case hdup =>
      intro hc
      rcases List.any_eq_true.mp hc with ⟨u, hu, hd⟩
      exact hnew u hu (by simpa using hd)
    rfl
  have hfu : ∀ pw, users.filter (fun u =>
      decide (u.username = "bob") &&
      decide (u.password_hash = hash_password sha pw)) = [] := by
    intro pw
    rw [List.filter_eq_nil_iff]
    intro u hu
    simp [hnew u hu]
  constructor
  · rw [hreg]
    unfold verify_user
    rw [List.filter_append, hfu "secret123"]
    simp [hash_password]
  · intro p hp
    rw [hreg]
    unfold verify_user
    rw [List.filter_append, hfu p]
    simp [hash_password]
    intro hcontra
    exact absurd hcontra.symm hp

/-- Witness for C5: registering bob over an empty user table with the
identity digest. -/
theorem spec_C5_witness :
    ("Bob B" : String) ≠ "" ∧ ("bob@edubull.com" : String) ≠ "" ∧
    (∀ u ∈ ([] : List User), u.username ≠ "bob") ∧
    (verify_user demoDigest
      (register demoDigest [] 1 "bob" "Bob B" "bob@edubull.com" "Engineering"
        "secret123" "secret123").1 "bob" "secret123" =
      some ⟨1, "bob", "Bob B", "bob@edubull.com", "Engineering",
            demoDigest "secret123", "user"⟩ ∧
    ∀ p, demoDigest p ≠ demoDigest "secret123" →
      verify_user demoDigest
        (register demoDigest [] 1 "bob" "Bob B" "bob@edubull.com" "Engineering"
          "secret123" "secret123").1 "bob" p = none) :=
  ⟨by decide, by decide, by decide,
   spec_C5_register_login_roundtrip demoDigest [] 1 "Bob B" "bob@edubull.com"
     "Engineering" (by decide) (by decide) (by decide)⟩

/-- C6: a registration attempt whose username already exists leaves the
users table unchanged and reports an error; when no earlier validation
error applies, the reported error is precisely duplicateUsername (the
pre-check fires before any insert). -/
theorem spec_C6_duplicate_username_rejected (sha : String → String)
    (users : List User) (nextId : Nat)
    (username fullName email department password confirm : String)
    (hdup : ∃ u ∈ users, u.username = username) :
    (register sha users nextId username fullName email department
      password confirm).1 = users ∧
    (register sha users nextId username fullName email department
      password confirm).2 ≠ none ∧
    (username ≠ "" → fullName ≠ "" → email ≠ "" → password ≠ "" →
     confirm ≠ "" → password = confirm →
     (register sha users nextId username fullName email department
       password confirm).2 = some RegisterError.duplicateUsername) := by
  have hany : (users.any fun u => decide (u.username = username)) = true := by
    rcases hdup with ⟨u, hu, he⟩
    exact List.any_eq_true.mpr ⟨u, hu, by simp [he]⟩
  refine ⟨?_, ?_, ?_⟩
  · unfold register
    split
    · rfl
    · split
      · rfl
      · rfl
  · unfold register
    split
    · simp
    · split
      · simp
      · simp
  · intro h1 h2 h3 h4 h5 h6
    unfold register
    rw [if_neg (by simp [h1, h2, h3, h4, h5]), if_neg (by simp [h6]),
        if_pos hany]

/-- Witness for C6: re-registering the existing username carol. -/
theorem spec_C6_witness :
    (∃ u ∈ [carol], u.username = "carol") ∧
    (register demoDigest [carol] 2 "carol" "Other C" "o@edubull.com" "Sales"
      "pw123456" "pw123456").1 = [carol] ∧
    (register demoDigest [carol] 2 "carol" "Other C" "o@edubull.com" "Sales"
      "pw123456" "pw123456").2 ≠ none ∧
    (register demoDigest [carol] 2 "carol" "Other C" "o@edubull.com" "Sales"
      "pw123456" "pw123456").2 = some RegisterError.duplicateUsername := by
  have h := spec_C6_duplicate_username_rejected demoDigest [carol] 2 "carol"
    "Other C" "o@edubull.com" "Sales" "pw123456" "pw123456" (by decide)
  exact ⟨by decide, h.1, h.2.1,
    h.2.2 (by decide) (by decide) (by decide) (by decide) (by decide) rfl⟩

/-- C9: the change-password flow stores freshSalt ++ dollar ++
sha(freshSalt ++ newPassword), an 81-character string when digests are 64
characters, while verify_user compares the stored value against the bare
64-character digest of the supplied password; the two can never be equal,
so after a successful password change no password whatsoever can log the
user in through verify_user. -/
theorem spec_C9_changed_password_cannot_login (sha : String → String)
    (users : List User) (uid : Nat)
    (current newPwd confirm freshSalt : String)
    (hlen : ∀ s, (sha s).length = 64) (hsalt : freshSalt.length = 16)
    (u : User) (_hu : u ∈ users) (_hid : u.id = uid)
    (huniq : ∀ v ∈ users, v.username = u.username → v.id = uid)
    (hok : (change_password sha users uid current newPwd confirm freshSalt).2
      = true) :
    ∀ p, verify_user sha
      (change_password sha users uid current newPwd confirm freshSalt).1
      u.username p = none := by
  have key : change_password sha users uid current newPwd confirm freshSalt
      = (users.map (fun v => if v.id = uid then
          { v with password_hash :=
              freshSalt ++ "$" ++ sha (freshSalt ++ newPwd) } else v), true)
      ∨ (change_password sha users uid current newPwd confirm freshSalt).2
        = false := by
    unfold change_password
    split
    · exact Or.inr rfl
    · split
      · exact Or.inr rfl
      · split
        · exact Or.inr rfl
        · split
          · exact Or.inr rfl
          · split
            · exact Or.inr rfl
            · split
              · exact Or.inr rfl
              · exact Or.inl rfl
  rcases key with hkey | hfalse
  · have hstep := congrArg Prod.fst hkey
    intro p
    unfold verify_user
    rw [hstep]
    rw [List.head?_eq_none_iff, List.filter_eq_nil_iff]
    intro w hw hpred
    rcases List.mem_map.mp hw with ⟨v, hv, hvw⟩
    rw [← hvw] at hpred
    by_cases hd : v.id = uid
    · simp only [hd, if_pos, Bool.and_eq_true, decide_eq_true_eq] at hpred
      have hL : (freshSalt ++ "$" ++ sha (freshSalt ++ newPwd)).length = 81 := by
        rw [String.length_append, String.length_append, hlen, hsalt]
        decide
      have h81 : (81 : Nat) = 64 := by
        rw [← hL, hpred.2]
        exact hlen p
      exact absurd h81 (by decide)
    · simp only [hd, if_neg, Bool.and_eq_true, decide_eq_true_eq,
        not_false_eq_true] at hpred
      exact hd (huniq v hv hpred.1)
  · rw [hfalse] at hok
    exact absurd hok (by decide)

/-- Witness for C9: carol changes her password successfully; afterwards no
password logs her in. -/
theorem spec_C9_witness :
    (∀ s, (sha64 s).length = 64) ∧
    ("ABCDEFGHIJKLMNOP" : String).length = 16 ∧
    (change_password sha64 [carol] 1 "old" "newsecret" "newsecret"
      "ABCDEFGHIJKLMNOP").2 = true ∧
    ∀ p, verify_user sha64
      (change_password sha64 [carol] 1 "old" "newsecret" "newsecret"
        "ABCDEFGHIJKLMNOP").1 "carol" p = none := by
  have hlen : ∀ s, (sha64 s).length = 64 := fun s => by
    show (String.mk (List.replicate 64 'x')).length = 64
    decide
  refine ⟨hlen, by decide, by decide, ?_⟩
  exact spec_C9_changed_password_cannot_login sha64 [carol] 1 "old"
    "newsecret" "newsecret" "ABCDEFGHIJKLMNOP" hlen (by decide) carol
    (by decide) rfl (by decide) (by decide)

/-- C2 counterexample: in a body that contains the known token at-alice
twice, the fan-out creates two mention rows and two notifications for
alice, so a body merely containing the token does not always yield exactly
one of each. -/
theorem spec_C2_counterexample :
    ("alice" ∈ findMentionTokens "hi @alice and @alice") ∧
    ¬(((process_comment_mentions [aliceU] (some 7) "Bob B" "Fix login" 3
        "hi @alice and @alice").1.countP
        (fun m => decide (m.user_id = aliceU.id)) = 1) ∧
      ((process_comment_mentions [aliceU] (some 7) "Bob B" "Fix login" 3
        "hi @alice and @alice").2.countP
        (fun n => decide (n.user_id = aliceU.id)) = 1)) := by
  decide

/-- C2 (amended): for a comment body in which the known username token
occurs exactly once, the fan-out creates exactly one mention row and one
notification addressed to that user; tokens resolving to no known username
contribute no mention and no notification (they are silently dropped, not
an error). -/
theorem spec_C2_mention_fanout (users : List User) (commentId : Nat)
    (authorFullName taskTitle : String) (taskId : Nat) (body : String)
    (alice : User)
    (hmap : ∀ t, username_map users t = some alice.id ↔ t = alice.username)
    (honce : (findMentionTokens body).countP
      (fun t => decide (t = alice.username)) = 1) :
    ((process_comment_mentions users (some commentId) authorFullName
        taskTitle taskId body).1.countP
      (fun m => decide (m.user_id = alice.id)) = 1) ∧
    ((process_comment_mentions users (some commentId) authorFullName
        taskTitle taskId body).2.countP
      (fun n => decide (n.user_id = alice.id)) = 1) ∧
    ((process_comment_mentions users (some commentId) authorFullName
        taskTitle taskId body).1.length =
      (findMentionTokens body).countP
        (fun t => (username_map users t).isSome)) ∧
    ((process_comment_mentions users (some commentId) authorFullName
        taskTitle taskId body).2.length =
      (findMentionTokens body).countP
        (fun t => (username_map users t).isSome)) := by
  unfold process_comment_mentions extract_mentions
  refine ⟨?_, ?_, ?_, ?_⟩
  · rw [countP_map_proj _ MentionRow.user_id (fun _ => rfl) alice.id,
      countP_filterMap_resolved _ alice.id alice.username hmap, honce]
  · rw [countP_map_proj _ NotificationInsert.user_id (fun _ => rfl) alice.id,
      countP_filterMap_resolved _ alice.id alice.username hmap, honce]
  · rw [List.length_map, length_filterMap_eq_countP]
  · rw [List.length_map, length_filterMap_eq_countP]

/-- Witness for C2: alice mentioned exactly once in a body that also
mentions the unknown name ghost. -/
theorem spec_C2_witness :
    (∀ t, username_map [aliceU] t = some aliceU.id ↔ t = aliceU.username) ∧
    ((findMentionTokens "@alice please see this, @ghost").countP
      (fun t => decide (t = aliceU.username)) = 1) ∧
    (((process_comment_mentions [aliceU] (some 7) "Bob B" "Fix login" 3
        "@alice please see this, @ghost").1.countP
      (fun m => decide (m.user_id = aliceU.id)) = 1) ∧
    ((process_comment_mentions [aliceU] (some 7) "Bob B" "Fix login" 3
        "@alice please see this, @ghost").2.countP
      (fun n => decide (n.user_id = aliceU.id)) = 1) ∧
    ((process_comment_mentions [aliceU] (some 7) "Bob B" "Fix login" 3
        "@alice please see this, @ghost").1.length =
      (findMentionTokens "@alice please see this, @ghost").countP
        (fun t => (username_map [aliceU] t).isSome)) ∧
    ((process_comment_mentions [aliceU] (some 7) "Bob B" "Fix login" 3
        "@alice please see this, @ghost").2.length =
      (findMentionTokens "@alice please see this, @ghost").countP
        (fun t => (username_map [aliceU] t).isSome))) := by
  have hmap : ∀ t, username_map [aliceU] t = some aliceU.id ↔
      t = aliceU.username := by
    intro t
    rw [username_map_singleton]
    by_cases h : aliceU.username = t
    · subst h
      simp
    · simp [h]
      intro hts
      exact absurd hts.symm h
  exact ⟨hmap, by decide,
    spec_C2_mention_fanout [aliceU] 7 "Bob B" "Fix login" 3
      "@alice please see this, @ghost" aliceU hmap (by decide)⟩

/-- C10: mention occurrences are not deduplicated: a body in which the
known username token occurs k times produces exactly k mention rows and k
notifications for that user, one per occurrence. -/
theorem spec_C10_mentions_not_deduplicated (users : List User)
    (commentId : Nat) (authorFullName taskTitle : String) (taskId : Nat)
    (body : String) (alice : User)
    (hmap : ∀ t, username_map users t = some alice.id ↔ t = alice.username) :
    ((process_comment_mentions users (some commentId) authorFullName
        taskTitle taskId body).1.countP
      (fun m => decide (m.user_id = alice.id)) =
      (findMentionTokens body).countP
        (fun t => decide (t = alice.username))) ∧
    ((process_comment_mentions users (some commentId) authorFullName
        taskTitle taskId body).2.countP
      (fun n => decide (n.user_id = alice.id)) =
      (findMentionTokens body).countP
        (fun t => decide (t = alice.username))) := by
  unfold process_comment_mentions extract_mentions
  constructor
  · rw [countP_map_proj _ MentionRow.user_id (fun _ => rfl) alice.id,
      countP_filterMap_resolved _ alice.id alice.username hmap]
  · rw [countP_map_proj _ NotificationInsert.user_id (fun _ => rfl) alice.id,
      countP_filterMap_resolved _ alice.id alice.username hmap]

/-- Witness for C10: a body mentioning alice twice yields two mention rows
and two notifications for alice. -/
theorem spec_C10_witness :
    (∀ t, username_map [aliceU] t = some aliceU.id ↔ t = aliceU.username) ∧
    ((findMentionTokens "@alice ping @alice").countP
      (fun t => decide (t = aliceU.username)) = 2) ∧
    (((process_comment_mentions [aliceU] (some 8) "Bob B" "Fix login" 3
        "@alice ping @alice").1.countP
      (fun m => decide (m.user_id = aliceU.id)) =
      (findMentionTokens "@alice ping @alice").countP
        (fun t => decide (t = aliceU.username))) ∧
    ((process_comment_mentions [aliceU] (some 8) "Bob B" "Fix login" 3
        "@alice ping @alice").2.countP
      (fun n => decide (n.user_id = aliceU.id)) =
      (findMentionTokens "@alice ping @alice").countP
        (fun t => decide (t = aliceU.username)))) := by
  have hmap : ∀ t, username_map [aliceU] t = some aliceU.id ↔
      t = aliceU.username := by
    intro t
    rw [username_map_singleton]
    by_cases h : aliceU.username = t
    · subst h
      simp
    · simp [h]
      intro hts
      exact absurd hts.symm h
  exact ⟨hmap, by decide,
    spec_C10_mentions_not_deduplicated [aliceU] 8 "Bob B" "Fix login" 3
      "@alice ping @alice" aliceU hmap⟩

/-- C3 evaluated at the failing input: with the default status catalog, a
To Do task that has an assignee in the tasks table moves exactly one step
forward when advanced, yet the inserted notification list is empty — the
row dict of the SELECT carries no assignee_id key, so the notification
branch never runs.  A task already in the terminal status Done is a no-op
with no notification, as claimed. -/
theorem spec_C3_assignee_never_notified :
    (move_to_next_status
      [⟨1, "To Do"⟩, ⟨2, "In Progress"⟩, ⟨3, "Review"⟩, ⟨4, "Done"⟩]
      [⟨5, 1, some 9⟩]
      ⟨5, "Fix login", "", "High", none, some "Dana D", "Bob B"⟩ 1 true
      = ([⟨5, 2, some 9⟩], [], true)) ∧
    (move_to_next_status
      [⟨1, "To Do"⟩, ⟨2, "In Progress"⟩, ⟨3, "Review"⟩, ⟨4, "Done"⟩]
      [⟨5, 4, some 9⟩]
      ⟨5, "Fix login", "", "High", none, some "Dana D", "Bob B"⟩ 4 true
      = ([⟨5, 4, some 9⟩], [], false)) := by
  decide

/-- Helper: an upsert leaves a row carrying the requested pair and flags. -/
theorem upsertGrant_mem_updated (grants : List Grant) (uid did : Nat)
    (v e : Bool) :
    ∃ g ∈ upsertGrant grants uid did v e,
      g.user_id = uid ∧ g.department_id = did ∧
      g.can_view = v ∧ g.can_edit = e := by
  unfold upsertGrant
  by_cases hex : (grants.any fun g =>
      decide (g.user_id = uid) && decide (g.department_id = did)) = true
  · rw [if_pos hex]
    rcases List.any_eq_true.mp hex with ⟨g0, hg0, hp⟩
    simp only [Bool.and_eq_true, decide_eq_true_eq] at hp
    refine ⟨{ g0 with can_view := v, can_edit := e }, ?_, hp.1, hp.2, rfl, rfl⟩
    exact List.mem_map.mpr ⟨g0, hg0, by rw [if_pos ⟨hp.1, hp.2⟩]⟩
  · rw [if_neg hex]
    exact ⟨⟨uid, did, v, e⟩,
      List.mem_append_right _ (List.mem_singleton.mpr rfl), rfl, rfl, rfl, rfl⟩

/-- Helper: an upsert for a different department keeps an existing row. -/
theorem upsertGrant_preserves (grants : List Grant) (uid did : Nat)
    (v e : Bool) (g : Grant) (hg : g ∈ grants)
    (hne : g.department_id ≠ did) :
    g ∈ upsertGrant grants uid did v e := by
  unfold upsertGrant
  split
  · exact List.mem_map.mpr ⟨g, hg, by rw [if_neg (fun hc => hne hc.2)]⟩
  · exact List.mem_append_left _ hg

/-- Helper: the loop's success count is the number of indices whose write
succeeds. -/
theorem update_permissions_go_count (uid : Nat) (ok : Nat → Bool) :
    ∀ (perms : List PermissionUpdate) (grants : List Grant) (i cnt : Nat),
      (update_permissions_go uid ok grants i cnt perms).2 =
        cnt + (List.range' i perms.length).countP ok := by
  intro perms
  induction perms with
  | nil =>
    intro grants i cnt
    simp [update_permissions_go]
  | cons p rest ih =>
    intro grants i cnt
    unfold update_permissions_go
    by_cases hok : ok i = true
    · rw [if_pos hok, ih]
      simp [List.range'_succ, List.countP_cons, hok]
      omega
    · rw [if_neg hok, ih]
      rw [Bool.not_eq_true] at hok
      simp [List.range'_succ, List.countP_cons, hok]

/-- Helper: a row whose department is touched by no later form entry
survives the rest of the loop. -/
theorem update_permissions_go_preserves (uid : Nat) (ok : Nat → Bool) :
    ∀ (perms : List PermissionUpdate) (grants : List Grant) (i cnt : Nat)
      (g : Grant), g ∈ grants →
      (∀ q ∈ perms, q.department_id ≠ g.department_id) →
      g ∈ (update_permissions_go uid ok grants i cnt perms).1 := by
  intro perms
  induction perms with
  | nil =>
    intro grants i cnt g hg _
    simpa [update_permissions_go] using hg
  | cons p rest ih =>
    intro grants i cnt g hg hne
    unfold update_permissions_go
    by_cases hok : ok i = true
    · rw [if_pos hok]
      refine ih _ _ _ g ?_ (fun q hq => hne q (List.mem_cons_of_mem p hq))
      exact upsertGrant_preserves grants uid p.department_id p.can_view
        p.can_edit g hg (fun hc => hne p (List.mem_cons_self p rest) hc.symm)
    · rw [if_neg hok]
      exact ih _ _ _ g hg (fun q hq => hne q (List.mem_cons_of_mem p hq))

/-- Helper: every successful upsert of the batch is visible in the final
table when the batch departments are distinct, whatever happens before or
after it. -/
theorem update_permissions_go_persist (uid : Nat) (ok : Nat → Bool) :
    ∀ (perms : List PermissionUpdate) (grants : List Grant) (i cnt : Nat),
      (perms.map (fun p => p.department_id)).Nodup →
      ∀ j (hj : j < perms.length), ok (i + j) = true →
      ∃ g ∈ (update_permissions_go uid ok grants i cnt perms).1,
        g.user_id = uid ∧ g.department_id = perms[j].department_id ∧
        g.can_view = perms[j].can_view ∧ g.can_edit = perms[j].can_edit := by
  intro perms
  induction perms with
  | nil =>
    intro grants i cnt _ j hj
    exact absurd hj (by simp)
  | cons p rest ih =>
    intro grants i cnt hnd j hj hok
    rw [List.map_cons, List.nodup_cons] at hnd
    match j with
    | 0 =>
      have hoki : ok i = true := by simpa using hok
      unfold update_permissions_go
      rw [if_pos hoki]
      rcases upsertGrant_mem_updated grants uid p.department_id p.can_view
        p.can_edit with ⟨g, hgmem, hgp⟩
      refine ⟨g, ?_, by simpa using hgp⟩
      refine update_permissions_go_preserves uid ok rest _ _ _ g hgmem ?_
      intro q hq
      rw [hgp.2.1]
      intro hqd
      exact hnd.1 (List.mem_map.mpr ⟨q, hq, hqd⟩)
    | j' + 1 =>
      have hok2 : ok ((i + 1) + j') = true := by
        rw [show (i + 1) + j' = i + (j' + 1) by omega]
        exact hok
      have hj2 : j' < rest.length := by simpa using hj
      unfold update_permissions_go
      by_cases hoki : ok i = true
      · rw [if_pos hoki]
        have h := ih (upsertGrant grants uid p.department_id p.can_view
          p.can_edit) (i + 1) (cnt + 1) hnd.2 j' hj2 hok2
        simpa using h
      · rw [if_neg hoki]
        have h := ih grants (i + 1) cnt hnd.2 j' hj2 hok2
        simpa using h

/-- C4: the batch permission update counts exactly the successful upserts
and reports that count of N to the caller; it is not atomic across
departments: whenever the j-th write succeeds, its grant row (both flags
as submitted) is present in the final table regardless of any other
write's failure, provided the batch touches distinct departments (as the
admin form does, one entry per department). -/
theorem spec_C4_batch_upsert_not_atomic (grants : List Grant) (uid : Nat)
    (perms : List PermissionUpdate) (ok : Nat → Bool) :
    (update_permissions grants uid perms ok).2 =
      (List.range perms.length).countP ok ∧
    ((perms.map (fun p => p.department_id)).Nodup →
      ∀ j (hj : j < perms.length), ok j = true →
      ∃ g ∈ (update_permissions grants uid perms ok).1,
        g.user_id = uid ∧ g.department_id = perms[j].department_id ∧
        g.can_view = perms[j].can_view ∧ g.can_edit = perms[j].can_edit) := by
  constructor
  · rw [update_permissions, update_permissions_go_count,
      List.range_eq_range']
    omega
  · intro hnd j hj hok
    exact update_permissions_go_persist uid ok perms grants 0 0 hnd j hj
      (by simpa using hok)

/-- Witness for C4: the spec scenario — two grants upserted in one batch
where the second write fails: the caller is told 1 of 2 succeeded, and the
first department's grant is persisted. -/
theorem spec_C4_witness :
    (demoPerms.map (fun p => p.department_id)).Nodup ∧
    demoOk 1 = false ∧
    (update_permissions [] 1 demoPerms demoOk).2 =
      (List.range demoPerms.length).countP demoOk ∧
    (update_permissions [] 1 demoPerms demoOk).2 = 1 ∧
    ∃ g ∈ (update_permissions [] 1 demoPerms demoOk).1,
      g.user_id = 1 ∧ g.department_id = demoPerms[0].department_id ∧
      g.can_view = demoPerms[0].can_view ∧
      g.can_edit = demoPerms[0].can_edit := by
  refine ⟨by decide, by decide, ?_, by decide, ?_⟩
  · exact (spec_C4_batch_upsert_not_atomic [] 1 demoPerms demoOk).1
  · exact (spec_C4_batch_upsert_not_atomic [] 1 demoPerms demoOk).2
      (by decide) 0 (by decide) (by decide)

end Jira
